import Mathlib

/-!
Shallow embedding of the CHIP-8 emulator core (chip8.cpp / chip8.h) and
verification of its specification.

Machine integers are modelled as Nat with explicit truncation (`% 256` for
uint8_t wraparound, `% 65536` for uint16_t) at exactly the points where the
C++ code performs modular arithmetic.  Fixed-size arrays (memory, registers,
stack, display, keys) are modelled as total functions from Nat; every
in-bounds access coincides with the C++ array access, and out-of-bounds
subscripts (which are undefined behaviour in C++) are reasoned about through
the concrete index values that the code computes.
-/

/-- Pointwise update of a function, modelling an array element assignment. -/
def upd (f : Nat → Nat) (i : Nat) (v : Nat) : Nat → Nat :=
  fun j => if j = i then v else f j

/-- MEMORY_SIZE constant from chip8.h: 4KB of RAM. -/
def MEMORY_SIZE : Nat := 4096

/-- ROM_START_ADDRESS constant from chip8.h: programs start at 0x200. -/
def ROM_START_ADDRESS : Nat := 0x200

/-- STACK_SIZE constant from chip8.h: 16 levels of nesting. -/
def STACK_SIZE : Nat := 16

/-- KEY_COUNT constant from chip8.h. -/
def KEY_COUNT : Nat := 16

/-- The machine state of the Chip8 class (chip8.h): memory, registers V0-VF,
index register I, program counter, display buffer, draw flag, the two timers,
the call stack with its stack pointer, key states, and the current opcode
member that emulateCycle writes and executeOpcode reads. -/
structure Chip8 where
  memory : Nat → Nat
  V : Nat → Nat
  I : Nat
  pc : Nat
  display : Nat → Nat
  drawFlag : Bool
  delayTimer : Nat
  soundTimer : Nat
  stack : Nat → Nat
  sp : Nat
  keys : Nat → Bool
  opcode : Nat

/-- The fontset array from chip8.h (80 bytes, glyphs 0-F, 5 bytes each). -/
def fontset : List Nat :=
  [0xF0, 0x90, 0x90, 0x90, 0xF0,
   0x20, 0x60, 0x20, 0x20, 0x70,
   0xF0, 0x10, 0xF0, 0x80, 0xF0,
   0xF0, 0x10, 0xF0, 0x10, 0xF0,
   0x90, 0x90, 0xF0, 0x10, 0x10,
   0xF0, 0x80, 0xF0, 0x10, 0xF0,
   0xF0, 0x80, 0xF0, 0x90, 0xF0,
   0xF0, 0x10, 0x20, 0x40, 0x40,
   0xF0, 0x90, 0xF0, 0x90, 0xF0,
   0xF0, 0x90, 0xF0, 0x10, 0xF0,
   0xF0, 0x90, 0xF0, 0x90, 0x90,
   0xE0, 0x90, 0xE0, 0x90, 0xE0,
   0xF0, 0x80, 0x80, 0x80, 0xF0,
   0xE0, 0x90, 0x90, 0x90, 0xE0,
   0xF0, 0x80, 0xF0, 0x80, 0xF0,
   0xF0, 0x80, 0xF0, 0x80, 0x80]

/-- Copy a list of bytes into the memory function at consecutive addresses,
modelling both the std::copy of the fontset in Chip8::initialize and the
file.read into memory[ROM_START_ADDRESS] in Chip8::loadROM. -/
def writeBytes : (Nat → Nat) → Nat → List Nat → (Nat → Nat)
  | mem, _, [] => mem
  | mem, a, b :: bs => writeBytes (upd mem a b) (a + 1) bs

/-- Chip8::initialize(): pc := 0x200, everything cleared, fontset copied to
addresses 0x000-0x04F, drawFlag set. -/
def initialState : Chip8 :=
  { memory := writeBytes (fun _ => 0) 0 fontset
    V := fun _ => 0
    I := 0
    pc := ROM_START_ADDRESS
    display := fun _ => 0
    drawFlag := true
    delayTimer := 0
    soundTimer := 0
    stack := fun _ => 0
    sp := 0
    keys := fun _ => false
    opcode := 0 }

/-- The byte-copy logic of Chip8::loadROM, with the ROM contents given as the
byte list read from the file (the file-opening step is platform glue outside
this model).  The code rejects the ROM when size > MEMORY_SIZE -
ROM_START_ADDRESS (copying nothing and returning false); otherwise it reads
the bytes into memory starting at 0x200 and returns true. -/
def loadROM (s : Chip8) (rom : List Nat) : Bool × Chip8 :=
  if MEMORY_SIZE - ROM_START_ADDRESS < rom.length then
    (false, s)
  else
    (true, { s with memory := writeBytes s.memory ROM_START_ADDRESS rom })

/-- Chip8::executeOpcode(): decode s.opcode and execute it, per the switch on
opcode and 0xF000 in chip8.cpp.  The Bool result records whether the branch
wrote an error or TODO diagnostic to std::cerr (the unknown-opcode default of
the 0x0 family, the 0x8000 placeholder, and the final default that covers the
0xB000-0xF000 placeholders).  uint16_t wraparound of pc is `% 65536`; the
uint8_t decrement of sp in 00EE is `(sp + 255) % 256`; the uint8_t increment
of sp in 2NNN is `(sp + 1) % 256`; 7XNN adds modulo 256 into V[X]. -/
def executeOpcode (s : Chip8) : Chip8 × Bool :=
  let X := (s.opcode &&& 0x0F00) >>> 8
  let Y := (s.opcode &&& 0x00F0) >>> 4
  let NN := s.opcode &&& 0x00FF
  let NNN := s.opcode &&& 0x0FFF
  let fam := s.opcode &&& 0xF000
  if fam = 0x0000 then
    if NN = 0xE0 then
      ({ s with display := fun _ => 0, drawFlag := true,
                pc := (s.pc + 2) % 65536 }, false)
    else if NN = 0xEE then
      ({ s with sp := (s.sp + 255) % 256,
                pc := (s.stack ((s.sp + 255) % 256) + 2) % 65536 }, false)
    else
      ({ s with pc := (s.pc + 2) % 65536 }, true)
  else if fam = 0x1000 then
    ({ s with pc := NNN }, false)
  else if fam = 0x2000 then
    ({ s with stack := upd s.stack s.sp s.pc, sp := (s.sp + 1) % 256,
              pc := NNN }, false)
  else if fam = 0x3000 then
    ({ s with pc := (s.pc + if s.V X = NN then 4 else 2) % 65536 }, false)
  else if fam = 0x4000 then
    ({ s with pc := (s.pc + if s.V X = NN then 2 else 4) % 65536 }, false)
  else if fam = 0x5000 then
    ({ s with pc := (s.pc + if s.V X = s.V Y then 4 else 2) % 65536 }, false)
  else if fam = 0x6000 then
    ({ s with V := upd s.V X NN, pc := (s.pc + 2) % 65536 }, false)
  else if fam = 0x7000 then
    ({ s with V := upd s.V X ((s.V X + NN) % 256),
              pc := (s.pc + 2) % 65536 }, false)
  else if fam = 0x8000 then
    ({ s with pc := (s.pc + 2) % 65536 }, true)
  else if fam = 0x9000 then
    ({ s with pc := (s.pc + if s.V X = s.V Y then 2 else 4) % 65536 }, false)
  else if fam = 0xA000 then
    ({ s with I := NNN, pc := (s.pc + 2) % 65536 }, false)
  else
    ({ s with pc := (s.pc + 2) % 65536 }, true)

/-- The instruction fetch of Chip8::emulateCycle:
opcode = (memory[pc] << 8) | memory[pc + 1]. -/
def fetch (s : Chip8) : Nat :=
  (s.memory s.pc) <<< 8 ||| s.memory (s.pc + 1)

/-- The two memory subscripts evaluated by the fetch in Chip8::emulateCycle:
memory[pc] and memory[pc + 1]. -/
def fetchIndices (s : Chip8) : List Nat :=
  [s.pc, s.pc + 1]

/-- Chip8::emulateCycle(): fetch the opcode at pc, store it in the opcode
member, then decode and execute it. -/
def emulateCycle (s : Chip8) : Chip8 × Bool :=
  executeOpcode { s with opcode := fetch s }

/-- Execute a single given opcode word: executeOpcode run with the opcode
member set to the word (as emulateCycle does after a fetch). -/
def execOp (s : Chip8) (op : Nat) : Chip8 :=
  (executeOpcode { s with opcode := op }).1

/-- Chip8::updateTimers(): decrement delayTimer when positive, then decrement
soundTimer when positive. -/
def updateTimers (s : Chip8) : Chip8 :=
  let s1 := if s.delayTimer > 0 then { s with delayTimer := s.delayTimer - 1 } else s
  if s1.soundTimer > 0 then { s1 with soundTimer := s1.soundTimer - 1 } else s1

/-- n consecutive calls of Chip8::updateTimers. -/
def updateTimersN : Nat → Chip8 → Chip8
  | 0, s => s
  | n + 1, s => updateTimersN n (updateTimers s)

/-- Modelled from the spec (section 4.3): the 35 instruction-word patterns of
the CHIP-8 opcode table.  A word matches a known pattern exactly when this
predicate holds; the code under src/ decodes more coarsely, which is what
claim C8 compares against. -/
def specKnownOpcode (w : Nat) : Bool :=
  let fam := w &&& 0xF000
  let N := w &&& 0x000F
  let NN := w &&& 0x00FF
  (w == 0x00E0) || (w == 0x00EE) ||
  (fam == 0x1000) || (fam == 0x2000) || (fam == 0x3000) || (fam == 0x4000) ||
  (fam == 0x5000 && N == 0x0) || (fam == 0x6000) || (fam == 0x7000) ||
  (fam == 0x8000 && (N ≤ 7 || N == 0xE)) ||
  (fam == 0x9000 && N == 0x0) || (fam == 0xA000) || (fam == 0xB000) ||
  (fam == 0xC000) || (fam == 0xD000) ||
  (fam == 0xE000 && (NN == 0x9E || NN == 0xA1)) ||
  (fam == 0xF000 && (NN == 0x07 || NN == 0x0A || NN == 0x15 || NN == 0x18 ||
                     NN == 0x1E || NN == 0x29 || NN == 0x33 || NN == 0x55 ||
                     NN == 0x65))

/-- An arbitrary but fully concrete machine state (all arrays zeroed, pc at
the program entry point) used as the base of concrete test states. -/
def zeroState : Chip8 :=
  { memory := fun _ => 0
    V := fun _ => 0
    I := 0
    pc := 0x200
    display := fun _ => 0
    drawFlag := false
    delayTimer := 0
    soundTimer := 0
    stack := fun _ => 0
    sp := 0
    keys := fun _ => false
    opcode := 0 }

/-- Concrete state for claim C1: about to execute 8XY4 word 0x8124 with
V1 = 200 and V2 = 100 (unsigned sum 300, which exceeds 255). -/
def c1_state : Chip8 :=
  { zeroState with opcode := 0x8124, V := upd (upd zeroState.V 1 200) 2 100 }

/-- Concrete state for claim C2: about to execute call word 0x2300 with
pc = 0x200 and an empty stack. -/
def c2_state : Chip8 :=
  { zeroState with opcode := 0x2300 }

/-- Concrete state for the witness of claim C2: call word 0x2345 with
pc = 0x204 and three entries already on the stack. -/
def c2w_state : Chip8 :=
  { zeroState with opcode := 0x2345, pc := 0x204, sp := 3 }

/-- Concrete state for the witness of claim C3: memory holds the call
0x22 0x10 at 0x200 and the return 0x00 0xEE at the called address 0x210. -/
def c3_state : Chip8 :=
  { zeroState with
    memory := upd (upd (upd (upd (fun _ => 0) 0x200 0x22) 0x201 0x10) 0x210 0x00) 0x211 0xEE }

/-- Concrete state for claim C4: pc = 0xFFC (even, in range) and memory
holding the skip instruction 0x30 0x00 there (3XNN with V0 = NN = 0, so the
skip is taken).  This state is reachable from reset by loading a ROM whose
first instruction is the in-range even jump 0x1F 0xFC and whose bytes at
offset 0xDFC hold 0x30 0x00. -/
def c4_state : Chip8 :=
  { zeroState with
    pc := 0xFFC
    memory := upd (upd (fun _ => 0) 0xFFC 0x30) 0xFFD 0x00 }

/-- Concrete state for claim C6: return word 0x00EE with an empty stack
(sp = 0).  Ghost cell 255 of the stack function carries the marker value
0x7777 so the theorem can exhibit that the code reads stack index 255. -/
def c6_state : Chip8 :=
  { zeroState with opcode := 0x00EE, stack := upd zeroState.stack 255 0x7777 }

/-- Concrete state for claim C7: V0 = 5, V1 = 6, V2 = 7, everything else
zeroed. -/
def c7_state : Chip8 :=
  { zeroState with V := upd (upd (upd zeroState.V 0 5) 1 6) 2 7 }

/-- The state after the C7 scenario: ANNN (I := 0x220), FX55 with X = 2,
zeroing V0..V2 by three 6XNN instructions, then FX65 with X = 2. -/
def c7_final : Chip8 :=
  execOp (execOp (execOp (execOp (execOp (execOp c7_state 0xA220)
    0xF255) 0x6000) 0x6100) 0x6200) 0xF265

/-- Concrete state for claim C8: memory at pc holds 0x50 0x11, the word
0x5011 (pattern 5XYN with N = 1), which matches none of the 35 documented
opcode patterns. -/
def c8_state : Chip8 :=
  { zeroState with memory := upd (upd (fun _ => 0) 0x200 0x50) 0x201 0x11 }

/-- Concrete state for the witness of claim C8: opcode 0x0123 (family 0x0
with NN = 0x23, matching no known pattern). -/
def c8w_state : Chip8 :=
  { zeroState with opcode := 0x0123 }

/-- Branch equation: 00E0 (clear screen) of Chip8::executeOpcode. -/
theorem executeOpcode_clear (s : Chip8) (h1 : s.opcode &&& 0xF000 = 0x0000)
    (h2 : s.opcode &&& 0x00FF = 0xE0) :
    executeOpcode s =
      ({ s with display := fun _ => 0, drawFlag := true,
                pc := (s.pc + 2) % 65536 }, false) := by
  simp only [executeOpcode]
  rw [h1, h2]
  norm_num

/-- Branch equation: 00EE (return from subroutine) of Chip8::executeOpcode. -/
theorem executeOpcode_ret (s : Chip8) (h1 : s.opcode &&& 0xF000 = 0x0000)
    (h2 : s.opcode &&& 0x00FF = 0xEE) :
    executeOpcode s =
      ({ s with sp := (s.sp + 255) % 256,
                pc := (s.stack ((s.sp + 255) % 256) + 2) % 65536 }, false) := by
  simp only [executeOpcode]
  rw [h1, h2]
  norm_num

/-- Branch equation: the unknown-opcode default of the 0x0 family. -/
theorem executeOpcode_unknown0 (s : Chip8) (h1 : s.opcode &&& 0xF000 = 0x0000)
    (h2 : s.opcode &&& 0x00FF ≠ 0xE0) (h3 : s.opcode &&& 0x00FF ≠ 0xEE) :
    executeOpcode s = ({ s with pc := (s.pc + 2) % 65536 }, true) := by
  simp only [executeOpcode]
  rw [h1, if_pos rfl, if_neg h2, if_neg h3]

/-- Branch equation: 1NNN (jump) of Chip8::executeOpcode. -/
theorem executeOpcode_jump (s : Chip8) (h : s.opcode &&& 0xF000 = 0x1000) :
    executeOpcode s = ({ s with pc := s.opcode &&& 0x0FFF }, false) := by
  simp only [executeOpcode]
  rw [h]
  norm_num

/-- Branch equation: 2NNN (call subroutine) of Chip8::executeOpcode. -/
theorem executeOpcode_call (s : Chip8) (h : s.opcode &&& 0xF000 = 0x2000) :
    executeOpcode s =
      ({ s with stack := upd s.stack s.sp s.pc, sp := (s.sp + 1) % 256,
                pc := s.opcode &&& 0x0FFF }, false) := by
  simp only [executeOpcode]
  rw [h]
  norm_num

/-- Branch equation: 3XNN (skip if VX equals NN) of Chip8::executeOpcode. -/
theorem executeOpcode_skipEq (s : Chip8) (h : s.opcode &&& 0xF000 = 0x3000) :
    executeOpcode s =
      ({ s with pc := (s.pc + if s.V ((s.opcode &&& 0x0F00) >>> 8) = s.opcode &&& 0x00FF then 4 else 2) % 65536 }, false) := by
  simp only [executeOpcode]
  rw [h]
  norm_num

/-- Branch equation: 4XNN (skip if VX differs from NN) of Chip8::executeOpcode. -/
theorem executeOpcode_skipNe (s : Chip8) (h : s.opcode &&& 0xF000 = 0x4000) :
    executeOpcode s =
      ({ s with pc := (s.pc + if s.V ((s.opcode &&& 0x0F00) >>> 8) = s.opcode &&& 0x00FF then 2 else 4) % 65536 }, false) := by
  simp only [executeOpcode]
  rw [h]
  norm_num

/-- Branch equation: the 5XYN case of Chip8::executeOpcode (skip if VX = VY,
for every low nibble N). -/
theorem executeOpcode_skipEqV (s : Chip8) (h : s.opcode &&& 0xF000 = 0x5000) :
    executeOpcode s =
      ({ s with pc := (s.pc + if s.V ((s.opcode &&& 0x0F00) >>> 8) = s.V ((s.opcode &&& 0x00F0) >>> 4) then 4 else 2) % 65536 }, false) := by
  simp only [executeOpcode]
  rw [h]
  norm_num

/-- Branch equation: 6XNN (set VX to NN) of Chip8::executeOpcode. -/
theorem executeOpcode_setV (s : Chip8) (h : s.opcode &&& 0xF000 = 0x6000) :
    executeOpcode s =
      ({ s with V := upd s.V ((s.opcode &&& 0x0F00) >>> 8) (s.opcode &&& 0x00FF),
                pc := (s.pc + 2) % 65536 }, false) := by
  simp only [executeOpcode]
  rw [h]
  norm_num

/-- Branch equation: 7XNN (add NN to VX modulo 256) of Chip8::executeOpcode. -/
theorem executeOpcode_addV (s : Chip8) (h : s.opcode &&& 0xF000 = 0x7000) :
    executeOpcode s =
      ({ s with V := upd s.V ((s.opcode &&& 0x0F00) >>> 8) ((s.V ((s.opcode &&& 0x0F00) >>> 8) + (s.opcode &&& 0x00FF)) % 256),
                pc := (s.pc + 2) % 65536 }, false) := by
  simp only [executeOpcode]
  rw [h]
  norm_num

/-- Branch equation: the 0x8000 family of Chip8::executeOpcode, which is an
unimplemented placeholder that prints a TODO message and advances pc. -/
theorem executeOpcode_todo8 (s : Chip8) (h : s.opcode &&& 0xF000 = 0x8000) :
    executeOpcode s = ({ s with pc := (s.pc + 2) % 65536 }, true) := by
  simp only [executeOpcode]
  rw [h]
  norm_num

/-- Branch equation: the 9XYN case of Chip8::executeOpcode (skip if VX and VY
differ, for every low nibble N). -/
theorem executeOpcode_skipNeV (s : Chip8) (h : s.opcode &&& 0xF000 = 0x9000) :
    executeOpcode s =
      ({ s with pc := (s.pc + if s.V ((s.opcode &&& 0x0F00) >>> 8) = s.V ((s.opcode &&& 0x00F0) >>> 4) then 2 else 4) % 65536 }, false) := by
  simp only [executeOpcode]
  rw [h]
  norm_num

/-- Branch equation: ANNN (set I) of Chip8::executeOpcode. -/
theorem executeOpcode_setI (s : Chip8) (h : s.opcode &&& 0xF000 = 0xA000) :
    executeOpcode s =
      ({ s with I := s.opcode &&& 0x0FFF, pc := (s.pc + 2) % 65536 }, false) := by
  simp only [executeOpcode]
  rw [h]
  norm_num

/-- Branch equation: the final default of Chip8::executeOpcode (families
0xB000 through 0xF000, all unimplemented placeholders). -/
theorem executeOpcode_default (s : Chip8)
    (h0 : s.opcode &&& 0xF000 ≠ 0x0000) (h1 : s.opcode &&& 0xF000 ≠ 0x1000)
    (h2 : s.opcode &&& 0xF000 ≠ 0x2000) (h3 : s.opcode &&& 0xF000 ≠ 0x3000)
    (h4 : s.opcode &&& 0xF000 ≠ 0x4000) (h5 : s.opcode &&& 0xF000 ≠ 0x5000)
    (h6 : s.opcode &&& 0xF000 ≠ 0x6000) (h7 : s.opcode &&& 0xF000 ≠ 0x7000)
    (h8 : s.opcode &&& 0xF000 ≠ 0x8000) (h9 : s.opcode &&& 0xF000 ≠ 0x9000)
    (hA : s.opcode &&& 0xF000 ≠ 0xA000) :
    executeOpcode s = ({ s with pc := (s.pc + 2) % 65536 }, true) := by
  simp only [executeOpcode]
  rw [if_neg h0, if_neg h1, if_neg h2, if_neg h3, if_neg h4, if_neg h5,
      if_neg h6, if_neg h7, if_neg h8, if_neg h9, if_neg hA]

/-- Chip8::updateTimers as a single record equation: both timers decrement
with Nat truncated subtraction (a zero timer stays zero), nothing else
changes. -/
theorem updateTimers_eq (s : Chip8) :
    updateTimers s = { s with delayTimer := s.delayTimer - 1,
                              soundTimer := s.soundTimer - 1 } := by
  obtain ⟨mem, v, i, pcv, disp, df, dt, st, stk, spv, ks, op⟩ := s
  simp only [updateTimers]
  split_ifs <;> simp_all

/-- n calls of Chip8::updateTimers subtract n from the delay timer
(truncated at zero). -/
theorem updateTimersN_delay (n : Nat) (s : Chip8) :
    (updateTimersN n s).delayTimer = s.delayTimer - n := by
  induction n generalizing s with
  | zero => rfl
  | succ n ih =>
    show (updateTimersN n (updateTimers s)).delayTimer = s.delayTimer - (n + 1)
    rw [ih, updateTimers_eq]
    dsimp only
    omega

/-- writeBytes leaves every address at or beyond the end of the copied block
unchanged. -/
theorem writeBytes_ge (bs : List Nat) (mem : Nat → Nat) (a j : Nat)
    (h : a + bs.length ≤ j) : writeBytes mem a bs j = mem j := by
  induction bs generalizing mem a with
  | nil => rfl
  | cons b bs ih =>
    show writeBytes (upd mem a b) (a + 1) bs j = mem j
    rw [ih]
    · simp only [upd]
      rw [if_neg]
      simp at h
      omega
    · simp at h
      omega

/-- writeBytes leaves every address below the start of the copied block
unchanged. -/
theorem writeBytes_lt (bs : List Nat) (mem : Nat → Nat) (a j : Nat)
    (h : j < a) : writeBytes mem a bs j = mem j := by
  induction bs generalizing mem a with
  | nil => rfl
  | cons b bs ih =>
    show writeBytes (upd mem a b) (a + 1) bs j = mem j
    rw [ih _ _ (by omega)]
    simp only [upd]
    rw [if_neg (by omega)]

/-- writeBytes stores byte i of the block at address a + i. -/
theorem writeBytes_get (bs : List Nat) (mem : Nat → Nat) (a i : Nat)
    (h : i < bs.length) : writeBytes mem a bs (a + i) = bs.getD i 0 := by
  induction bs generalizing mem a i with
  | nil => simp at h
  | cons b bs ih =>
    match i with
    | 0 =>
      show writeBytes (upd mem a b) (a + 1) bs (a + 0) = b
      rw [writeBytes_lt _ _ _ _ (by omega)]
      simp [upd]
    | i + 1 =>
      show writeBytes (upd mem a b) (a + 1) bs (a + (i + 1)) = bs.getD i 0
      have e : a + (i + 1) = (a + 1) + i := by omega
      rw [e, ih]
      simpa using h

/-- C1: the spec states that 8XY4 sets V[F] to 1 exactly when V[X] + V[Y]
exceeds 255 and stores the truncated sum in V[X].  The code contradicts this:
the whole 0x8000 family is an unimplemented placeholder that only prints a
TODO diagnostic and advances pc by 2.  At V1 = 200, V2 = 100 (sum 300 > 255),
executing word 0x8124 leaves V1 = 200 and VF = 0, where the claim requires
V1 = 44 and VF = 1. -/
theorem c1_add_carry_unimplemented :
    (executeOpcode c1_state).1.V 1 = 200 ∧
    (executeOpcode c1_state).1.V 0xF = 0 ∧
    (executeOpcode c1_state).2 = true ∧
    (executeOpcode c1_state).1.pc = 0x202 := by decide

/-- C2 counterexample: executing call word 0x2300 from pc = 0x200 stores
0x200 (the pc of the call itself) in stack slot sp, not 0x202 = pc + 2 as the
claim states. -/
theorem c2_call_counterexample :
    (executeOpcode c2_state).1.stack c2_state.sp ≠ c2_state.pc + 2 ∧
    (executeOpcode c2_state).1.stack c2_state.sp = c2_state.pc := by decide

/-- C2 as amended: executing 2NNN pushes the current PC (the address of the
call instruction itself, not PC + 2; the + 2 adjustment is applied by 00EE
when the address is popped), increments the stack pointer after storing, and
sets PC to NNN. -/
theorem c2_call_amended (s : Chip8)
    (h : s.opcode &&& 0xF000 = 0x2000) (hsp : s.sp < 16) :
    (executeOpcode s).1.stack s.sp = s.pc ∧
    (executeOpcode s).1.sp = s.sp + 1 ∧
    (executeOpcode s).1.pc = s.opcode &&& 0x0FFF ∧
    (executeOpcode s).2 = false := by
  rw [executeOpcode_call _ h]
  refine ⟨?_, ?_, rfl, rfl⟩
  · show upd s.stack s.sp s.pc s.sp = s.pc
    simp [upd]
  · show (s.sp + 1) % 256 = s.sp + 1
    omega

/-- C2 witness: the amended call semantics evaluated on the concrete state
c2w_state (word 0x2345, pc = 0x204, sp = 3). -/
theorem c2_call_witness :
    (executeOpcode c2w_state).1.stack 3 = 0x204 ∧
    (executeOpcode c2w_state).1.sp = 4 ∧
    (executeOpcode c2w_state).1.pc = 0x345 ∧
    (executeOpcode c2w_state).2 = false := by
  have h := c2_call_amended c2w_state (by decide) (by decide)
  exact ⟨h.1, h.2.1, h.2.2.1, h.2.2.2⟩

/-- C3: for every state whose pc holds a 2NNN call (pc at most 4094 so the
following address exists, at most 15 prior stack entries) where the called
address NNN holds the bytes 0x00 0xEE, executing the call and then the
return leaves PC at the address of the instruction following the original
call, pc + 2. -/
theorem c3_call_return_roundtrip (s : Chip8)
    (hc : fetch s &&& 0xF000 = 0x2000) (hsp : s.sp < 16) (hpc : s.pc ≤ 4094)
    (hm0 : s.memory (fetch s &&& 0x0FFF) = 0x00)
    (hm1 : s.memory ((fetch s &&& 0x0FFF) + 1) = 0xEE) :
    (emulateCycle (emulateCycle s).1).1.pc = s.pc + 2 := by
  have e1 : emulateCycle s = ({ s with opcode := fetch s, stack := upd s.stack s.sp s.pc, sp := (s.sp + 1) % 256, pc := fetch s &&& 0x0FFF }, false) := by
    unfold emulateCycle
    rw [executeOpcode_call _ (by simpa using hc)]
  rw [e1]
  have hf : fetch ({ s with opcode := fetch s, stack := upd s.stack s.sp s.pc, sp := (s.sp + 1) % 256, pc := fetch s &&& 0x0FFF } : Chip8) = 0xEE := by
    have e : fetch ({ s with opcode := fetch s, stack := upd s.stack s.sp s.pc, sp := (s.sp + 1) % 256, pc := fetch s &&& 0x0FFF } : Chip8) = s.memory (fetch s &&& 0x0FFF) <<< 8 ||| s.memory ((fetch s &&& 0x0FFF) + 1) := rfl
    rw [e, hm0, hm1]
    decide
  have e2 : emulateCycle ({ s with opcode := fetch s, stack := upd s.stack s.sp s.pc, sp := (s.sp + 1) % 256, pc := fetch s &&& 0x0FFF } : Chip8) = executeOpcode { s with opcode := 0xEE, stack := upd s.stack s.sp s.pc, sp := (s.sp + 1) % 256, pc := fetch s &&& 0x0FFF } := by
    unfold emulateCycle
    rw [hf]
  rw [e2, executeOpcode_ret _ (show (0xEE : Nat) &&& 0xF000 = 0x0000 by decide) (show (0xEE : Nat) &&& 0x00FF = 0xEE by decide)]
  simp only []
  have h1 : ((s.sp + 1) % 256 + 255) % 256 = s.sp := by omega
  rw [h1]
  simp [upd]
  omega

/-- C3 witness: calling 0x210 from 0x200 and returning via the 0x00EE stored
at 0x210 ends with PC = 0x202. -/
theorem c3_call_return_witness :
    (emulateCycle (emulateCycle c3_state).1).1.pc = 0x202 := by
  have h := c3_call_return_roundtrip c3_state (by decide) (by decide) (by decide)
    (by decide) (by decide)
  simpa [c3_state] using h

/-- C4 counterexample: c4_state has an even pc = 0xFFC inside [0x200, 0xFFE]
and holds the skip instruction 0x3000 there (family 0x3, not a jump or call),
with V0 = 0 = NN so the skip is taken; after one cycle pc = 0x1000, outside
the claimed range [0x200, 0xFFE]. -/
theorem c4_pc_range_counterexample :
    0x200 ≤ c4_state.pc ∧ c4_state.pc ≤ 0xFFE ∧ c4_state.pc % 2 = 0 ∧
    fetch c4_state &&& 0xF000 = 0x3000 ∧
    (emulateCycle c4_state).1.pc = 0x1000 ∧
    ¬((emulateCycle c4_state).1.pc ≤ 0xFFE) := by decide

/-- C4 as amended: from a state with even pc in [0x200, 0xFFE], one step
leaves pc even and in [0x200, 0x1002] (a taken skip at the top of the range
may overshoot 0xFFE by up to 4), provided any executed jump or call targets
an even address in [0x200, 0xFFE] and the executed instruction is not a
return (00EE), which takes pc from the stack and lies outside the jump/call
proviso of the claim. -/
theorem c4_pc_invariant_amended (s : Chip8)
    (h0 : 0x200 ≤ s.pc) (h1 : s.pc ≤ 0xFFE) (h2 : s.pc % 2 = 0)
    (hjc : fetch s &&& 0xF000 = 0x1000 ∨ fetch s &&& 0xF000 = 0x2000 →
      (fetch s &&& 0x0FFF) % 2 = 0 ∧ 0x200 ≤ fetch s &&& 0x0FFF ∧ fetch s &&& 0x0FFF ≤ 0xFFE)
    (hr : ¬(fetch s &&& 0xF000 = 0x0000 ∧ fetch s &&& 0x00FF = 0xEE)) :
    (emulateCycle s).1.pc % 2 = 0 ∧ 0x200 ≤ (emulateCycle s).1.pc ∧
      (emulateCycle s).1.pc ≤ 0x1002 := by
  obtain ⟨w, hw⟩ : ∃ w, fetch s = w := ⟨_, rfl⟩
  rw [hw] at hjc hr
  have hcy : emulateCycle s = executeOpcode { s with opcode := w } := by
    unfold emulateCycle
    rw [hw]
  rw [hcy]
  by_cases hf0 : w &&& 0xF000 = 0x0000
  · by_cases hE0 : w &&& 0x00FF = 0xE0
    · rw [executeOpcode_clear _ hf0 hE0]
      dsimp only
      omega
    · by_cases hEE : w &&& 0x00FF = 0xEE
      · exact absurd ⟨hf0, hEE⟩ hr
      · rw [executeOpcode_unknown0 _ hf0 hE0 hEE]
        dsimp only
        omega
  · by_cases hf1 : w &&& 0xF000 = 0x1000
    · rw [executeOpcode_jump _ hf1]
      dsimp only
      obtain ⟨a, b, c⟩ := hjc (Or.inl hf1)
      omega
    · by_cases hf2 : w &&& 0xF000 = 0x2000
      · rw [executeOpcode_call _ hf2]
        dsimp only
        obtain ⟨a, b, c⟩ := hjc (Or.inr hf2)
        omega
      · by_cases hf3 : w &&& 0xF000 = 0x3000
        · rw [executeOpcode_skipEq _ hf3]
          dsimp only
          split_ifs <;> omega
        · by_cases hf4 : w &&& 0xF000 = 0x4000
          · rw [executeOpcode_skipNe _ hf4]
            dsimp only
            split_ifs <;> omega
          · by_cases hf5 : w &&& 0xF000 = 0x5000
            · rw [executeOpcode_skipEqV _ hf5]
              dsimp only
              split_ifs <;> omega
            · by_cases hf6 : w &&& 0xF000 = 0x6000
              · rw [executeOpcode_setV _ hf6]
                dsimp only
                omega
              · by_cases hf7 : w &&& 0xF000 = 0x7000
                · rw [executeOpcode_addV _ hf7]
                  dsimp only
                  omega
                · by_cases hf8 : w &&& 0xF000 = 0x8000
                  · rw [executeOpcode_todo8 _ hf8]
                    dsimp only
                    omega
                  · by_cases hf9 : w &&& 0xF000 = 0x9000
                    · rw [executeOpcode_skipNeV _ hf9]
                      dsimp only
                      split_ifs <;> omega
                    · by_cases hfA : w &&& 0xF000 = 0xA000
                      · rw [executeOpcode_setI _ hfA]
                        dsimp only
                        omega
                      · rw [executeOpcode_default _ hf0 hf1 hf2 hf3 hf4 hf5 hf6 hf7 hf8 hf9 hfA]
                        dsimp only
                        omega

/-- C4 witness: the amended invariant evaluated at zeroState (pc = 0x200,
instruction word 0x0000, which is neither jump, call, nor return): after one
step pc = 0x202, even and in range. -/
theorem c4_pc_invariant_witness :
    (emulateCycle zeroState).1.pc % 2 = 0 ∧ 0x200 ≤ (emulateCycle zeroState).1.pc ∧
      (emulateCycle zeroState).1.pc ≤ 0x1002 :=
  c4_pc_invariant_amended zeroState (by decide) (by decide) (by decide)
    (by decide) (by decide)

/-- C5: the byte-copy logic of loadROM fails (returning false and leaving the
state untouched) exactly when the program is longer than 3584 bytes;
otherwise it succeeds and memory from 0x200 is byte-identical to the program,
with every address beyond the program (and below 0x200) unchanged. -/
theorem c5_loadROM_correct (s : Chip8) (rom : List Nat) :
    ((loadROM s rom).1 = false ↔ 3584 < rom.length) ∧
    (3584 < rom.length → (loadROM s rom).2 = s) ∧
    (rom.length ≤ 3584 →
      (loadROM s rom).1 = true ∧
      (∀ i, i < rom.length → (loadROM s rom).2.memory (0x200 + i) = rom.getD i 0) ∧
      (∀ j, 0x200 + rom.length ≤ j → (loadROM s rom).2.memory j = s.memory j) ∧
      (∀ j, j < 0x200 → (loadROM s rom).2.memory j = s.memory j)) := by
  rcases Nat.lt_or_ge 3584 rom.length with hl | hl
  · have e : loadROM s rom = (false, s) := by
      unfold loadROM
      rw [if_pos]
      simpa [MEMORY_SIZE, ROM_START_ADDRESS] using hl
    rw [e]
    refine ⟨by simpa using hl, fun _ => rfl, fun hc => absurd hc (by omega)⟩
  · have e : loadROM s rom =
        (true, { s with memory := writeBytes s.memory 0x200 rom }) := by
      unfold loadROM
      rw [if_neg]
      · rfl
      · unfold MEMORY_SIZE ROM_START_ADDRESS
        omega
    rw [e]
    refine ⟨by simp; omega, fun hc => absurd hc (by omega), fun _ => ⟨rfl, ?_, ?_, ?_⟩⟩
    · intro i hi
      exact writeBytes_get rom s.memory 0x200 i hi
    · intro j hj
      exact writeBytes_ge rom s.memory 0x200 j (by omega)
    · intro j hj
      exact writeBytes_lt rom s.memory 0x200 j (by omega)

/-- C5 witness: a 3585-byte program fails and changes nothing, a 3584-byte
program succeeds, and a two-byte program is byte-identical in memory from
0x200 with higher addresses unchanged. -/
theorem c5_loadROM_witness :
    (loadROM zeroState (List.replicate 3585 1)).1 = false ∧
    (loadROM zeroState (List.replicate 3585 1)).2 = zeroState ∧
    (loadROM zeroState (List.replicate 3584 1)).1 = true ∧
    (loadROM zeroState [0xAB, 0xCD]).2.memory 0x200 = 0xAB ∧
    (loadROM zeroState [0xAB, 0xCD]).2.memory 0x202 = zeroState.memory 0x202 := by
  refine ⟨?_, ?_, ?_, ?_, ?_⟩
  · exact (c5_loadROM_correct zeroState _).1.mpr (by rw [List.length_replicate]; omega)
  · exact (c5_loadROM_correct zeroState _).2.1 (by rw [List.length_replicate]; omega)
  · exact ((c5_loadROM_correct zeroState _).2.2 (by rw [List.length_replicate])).1
  · simpa using ((c5_loadROM_correct zeroState [0xAB, 0xCD]).2.2 (by simp)).2.1 0 (by simp)
  · exact ((c5_loadROM_correct zeroState [0xAB, 0xCD]).2.2 (by simp)).2.2.1 0x202 (by simp)

/-- C6: the spec requires a return with an empty stack to be surfaced as an
error, with sp never taken below zero, no out-of-bounds stack access, and the
state left unchanged.  The code contradicts this: executing 0x00EE at sp = 0
wraps the uint8_t stack pointer to 255, reads stack[255] (an out-of-bounds
subscript of the 16-entry std::array, undefined behaviour in C++ — here the
ghost cell holding the marker 0x7777), jumps to that value + 2, and reports
nothing. -/
theorem c6_underflow_out_of_bounds :
    c6_state.sp = 0 ∧
    (executeOpcode c6_state).1.sp = 255 ∧
    ¬((executeOpcode c6_state).1.sp < STACK_SIZE) ∧
    (executeOpcode c6_state).1.pc = 0x7779 ∧
    (executeOpcode c6_state).2 = false := by decide

/-- C7: the spec states that ANNN, FX55 (store V0..V2), zeroing V0..V2, then
FX65 (reload V0..V2) restores the original register values.  The code
contradicts this: the 0xF000 family is an unimplemented placeholder, so
0xF255 stores nothing (memory at I = 0x220 stays 0) and 0xF265 loads
nothing; starting from V0 = 5, V1 = 6, V2 = 7, the scenario ends with
V0 = V1 = V2 = 0 instead of the original values. -/
theorem c7_store_load_roundtrip_fails :
    c7_state.V 0 = 5 ∧ c7_state.V 1 = 6 ∧ c7_state.V 2 = 7 ∧
    c7_final.I = 0x220 ∧
    (executeOpcode { execOp c7_state 0xA220 with opcode := 0xF255 }).2 = true ∧
    c7_final.memory 0x220 = 0 ∧
    c7_final.V 0 = 0 ∧ c7_final.V 1 = 0 ∧ c7_final.V 2 = 0 ∧
    (c7_final.V 0 = c7_state.V 0 → False) := by decide

/-- C8 counterexample: the word 0x5011 (pattern 5XYN with N = 1) matches no
known opcode pattern, yet one step on c8_state (where V0 = V1, so the coarse
5XY0 decode of the code takes the skip) advances pc by 4 to 0x204 rather than by
2, and reports no decode error. -/
theorem c8_unknown_opcode_counterexample :
    specKnownOpcode (fetch c8_state) = false ∧
    (emulateCycle c8_state).2 = false ∧
    (emulateCycle c8_state).1.pc = 0x204 := by decide

/-- C8 as amended: every instruction word that matches no known pattern is
reported with pc advanced by exactly 2 and all other state unchanged, except
the words the coarse decoder aliases onto implemented instructions: 5XYN and
9XYN with N noneq 0 execute as the corresponding register skips, and 0XE0 or
0XEE with X noneq 0 execute as clear-screen or return. -/
theorem c8_unknown_opcode_amended (s : Chip8)
    (hk : specKnownOpcode s.opcode = false)
    (h5 : s.opcode &&& 0xF000 ≠ 0x5000)
    (h9 : s.opcode &&& 0xF000 ≠ 0x9000)
    (h0e : ¬(s.opcode &&& 0xF000 = 0x0000 ∧
      (s.opcode &&& 0x00FF = 0xE0 ∨ s.opcode &&& 0x00FF = 0xEE))) :
    (executeOpcode s).2 = true ∧
    (executeOpcode s).1.pc = (s.pc + 2) % 65536 ∧
    (executeOpcode s).1.V = s.V ∧
    (executeOpcode s).1.memory = s.memory ∧
    (executeOpcode s).1.stack = s.stack ∧
    (executeOpcode s).1.sp = s.sp ∧
    (executeOpcode s).1.I = s.I ∧
    (executeOpcode s).1.delayTimer = s.delayTimer ∧
    (executeOpcode s).1.soundTimer = s.soundTimer ∧
    (executeOpcode s).1.display = s.display ∧
    (executeOpcode s).1.drawFlag = s.drawFlag ∧
    (executeOpcode s).1.keys = s.keys := by
  by_cases hf0 : s.opcode &&& 0xF000 = 0x0000
  · by_cases hE0 : s.opcode &&& 0x00FF = 0xE0
    · exact absurd ⟨hf0, Or.inl hE0⟩ h0e
    · by_cases hEE : s.opcode &&& 0x00FF = 0xEE
      · exact absurd ⟨hf0, Or.inr hEE⟩ h0e
      · rw [executeOpcode_unknown0 _ hf0 hE0 hEE]
        exact ⟨rfl, rfl, rfl, rfl, rfl, rfl, rfl, rfl, rfl, rfl, rfl, rfl⟩
  · by_cases hf1 : s.opcode &&& 0xF000 = 0x1000
    · simp [specKnownOpcode, hf1] at hk
    · by_cases hf2 : s.opcode &&& 0xF000 = 0x2000
      · simp [specKnownOpcode, hf2] at hk
      · by_cases hf3 : s.opcode &&& 0xF000 = 0x3000
        · simp [specKnownOpcode, hf3] at hk
        · by_cases hf4 : s.opcode &&& 0xF000 = 0x4000
          · simp [specKnownOpcode, hf4] at hk
          · by_cases hf6 : s.opcode &&& 0xF000 = 0x6000
            · simp [specKnownOpcode, hf6] at hk
            · by_cases hf7 : s.opcode &&& 0xF000 = 0x7000
              · simp [specKnownOpcode, hf7] at hk
              · by_cases hf8 : s.opcode &&& 0xF000 = 0x8000
                · rw [executeOpcode_todo8 _ hf8]
                  exact ⟨rfl, rfl, rfl, rfl, rfl, rfl, rfl, rfl, rfl, rfl, rfl, rfl⟩
                · by_cases hfA : s.opcode &&& 0xF000 = 0xA000
                  · simp [specKnownOpcode, hfA] at hk
                  · rw [executeOpcode_default _ hf0 hf1 hf2 hf3 hf4 h5 hf6 hf7 hf8 h9 hfA]
                    exact ⟨rfl, rfl, rfl, rfl, rfl, rfl, rfl, rfl, rfl, rfl, rfl, rfl⟩

/-- C8 witness: the amended statement evaluated on the unknown word 0x0123
(family 0x0, NN = 0x23): reported, pc advanced from 0x200 to 0x202, all
other state unchanged. -/
theorem c8_unknown_opcode_witness :
    (executeOpcode c8w_state).2 = true ∧
    (executeOpcode c8w_state).1.pc = 0x202 ∧
    (executeOpcode c8w_state).1.V = c8w_state.V ∧
    (executeOpcode c8w_state).1.memory = c8w_state.memory ∧
    (executeOpcode c8w_state).1.stack = c8w_state.stack ∧
    (executeOpcode c8w_state).1.sp = c8w_state.sp ∧
    (executeOpcode c8w_state).1.I = c8w_state.I ∧
    (executeOpcode c8w_state).1.delayTimer = c8w_state.delayTimer ∧
    (executeOpcode c8w_state).1.soundTimer = c8w_state.soundTimer ∧
    (executeOpcode c8w_state).1.display = c8w_state.display ∧
    (executeOpcode c8w_state).1.drawFlag = c8w_state.drawFlag ∧
    (executeOpcode c8w_state).1.keys = c8w_state.keys := by
  have h := c8_unknown_opcode_amended c8w_state (by decide) (by decide) (by decide)
    (by decide)
  exact h

/-- C9: one call of updateTimers decrements each timer by 1 when positive and
leaves it at 0 otherwise (Nat truncated subtraction), changes nothing else,
and n calls starting from delay timer 30 leave it at 30 - n (truncated), so
60 calls end at exactly 0 and the timer is never negative. -/
theorem c9_updateTimers_correct (s : Chip8) :
    (updateTimers s).delayTimer = s.delayTimer - 1 ∧
    (updateTimers s).soundTimer = s.soundTimer - 1 ∧
    (updateTimers s).pc = s.pc ∧
    (updateTimers s).memory = s.memory ∧
    (updateTimers s).V = s.V ∧
    (updateTimers s).I = s.I ∧
    (updateTimers s).stack = s.stack ∧
    (updateTimers s).sp = s.sp ∧
    (updateTimers s).display = s.display ∧
    (updateTimers s).drawFlag = s.drawFlag ∧
    (updateTimers s).keys = s.keys ∧
    (∀ n, (updateTimersN n { s with delayTimer := 30 }).delayTimer = 30 - n) ∧
    (updateTimersN 60 { s with delayTimer := 30 }).delayTimer = 0 := by
  refine ⟨?_, ?_, ?_, ?_, ?_, ?_, ?_, ?_, ?_, ?_, ?_,
    fun n => updateTimersN_delay n _, updateTimersN_delay 60 _⟩ <;> rw [updateTimers_eq]

/-- Helper for C10: with pc at most 4094 both fetch subscripts are
in bounds. -/
theorem fetch_indices_in_range (s : Chip8) (h : s.pc ≤ 4094) :
    ∀ i ∈ fetchIndices s, i < MEMORY_SIZE := by
  intro i hi
  unfold MEMORY_SIZE
  simp [fetchIndices] at hi
  rcases hi with h1 | h1 <;> omega

/-- Helper for C10: executing jump word 0x1FFF sets pc = 0xFFF and makes the
next fetch subscript memory at 4096, outside the array. -/
theorem jump_fff_fetch_oob (s : Chip8) :
    (executeOpcode { s with opcode := 0x1FFF }).1.pc = 0xFFF ∧
      fetchIndices (executeOpcode { s with opcode := 0x1FFF }).1 = [0xFFF, 4096] ∧
      ¬((4096 : Nat) < MEMORY_SIZE) := by
  have e0 : executeOpcode { s with opcode := (0x1FFF : Nat) } =
      ({ s with opcode := 0x1FFF, pc := 0x1FFF &&& 0x0FFF }, false) := by
    rw [executeOpcode_jump _ (show (0x1FFF : Nat) &&& 0xF000 = 0x1000 by decide)]
  rw [e0]
  exact ⟨show (0x1FFF : Nat) &&& 0x0FFF = 0xFFF by decide,
    show [(0x1FFF : Nat) &&& 0x0FFF, ((0x1FFF : Nat) &&& 0x0FFF) + 1] = [0xFFF, 4096] by decide,
    by decide⟩

/-- C10: whenever pc is at most 4094 the fetch of emulateCycle subscripts
memory only at the in-bounds indices pc and pc + 1; but executing the jump
word 0x1FFF from any state (as emulateCycle does after fetching that word)
sets pc = 0xFFF, and the next fetch then subscripts memory at
0xFFF + 1 = 4096, outside the 4096-byte array. -/
theorem c10_fetch_bounds :
    (∀ s : Chip8, s.pc ≤ 4094 → ∀ i ∈ fetchIndices s, i < MEMORY_SIZE) ∧
    (∀ s : Chip8, (executeOpcode { s with opcode := 0x1FFF }).1.pc = 0xFFF ∧
      fetchIndices (executeOpcode { s with opcode := 0x1FFF }).1 = [0xFFF, 4096] ∧
      ¬((4096 : Nat) < MEMORY_SIZE)) :=
  ⟨fetch_indices_in_range, jump_fff_fetch_oob⟩

/-- C10 witness: the in-bounds half instantiated at zeroState (pc = 0x200):
index 0x200 read by the fetch is within the 4096-byte memory. -/
theorem c10_fetch_bounds_witness : (0x200 : Nat) < MEMORY_SIZE :=
  c10_fetch_bounds.1 zeroState (by decide) 0x200 (by decide)
